import Mathlib

/-
Verification of the ResumeGen repository (resumegen.py, cover_letter.py)
against its natural-language specification.  The Python code is shallowly
embedded: the document model is a list of nodes, dictionary lookups that can
raise KeyError are modelled with `Option`/`Except`, and the two regular
expressions of the inline-markup processor are executed by a backtracking
matcher with Python `re` semantics.
-/

namespace ResumeGen

/-- A run of rich text inside a paragraph: plain text, or a hyperlink carrying
a label and a url (the code calls `add_hyperlink(paragraph, label, url)`). -/
inductive Run where
  | plain (text : String)
  | link (label url : String)
deriving DecidableEq, Repr

/-- Python's `\s` class, restricted to its ASCII members. -/
def isSpaceRE (c : Char) : Bool :=
  c == ' ' || c == '\t' || c == '\n' || c == '\r' || c == '\x0b' || c == '\x0c'

/-- Elements of the regular expressions used by `resumegen.py`: a literal
character, a single-character class, a greedy star or plus over a class, and a
lazy star over a class that records a numbered capturing group.  Both patterns
in the source are built from exactly these shapes. -/
inductive RX where
  | ch (c : Char)
  | cls (p : Char → Bool)
  | starG (p : Char → Bool)
  | plusG (p : Char → Bool)
  | starL (p : Char → Bool) (grp : Nat)

/-- Number of consecutive characters of `s` starting at position `i` that
satisfy `p`: the largest repetition a quantifier over class `p` can consume. -/
def countWhile (s : List Char) (p : Char → Bool) (i : Nat) : Nat :=
  ((s.drop i).takeWhile p).length

/-- Backtracking matcher with Python `re` semantics: a greedy quantifier tries
the longest repetition first, a lazy one the shortest, and the first complete
match in this search order wins.  Returns the end position together with the
captured group spans `(group, start, stop)`. -/
def matchRX (s : List Char) : List RX → Nat → Option (Nat × List (Nat × Nat × Nat))
  | [], pos => some (pos, [])
  | .ch c :: rest, pos =>
    match s[pos]? with
    | some c2 => if c2 == c then matchRX s rest (pos + 1) else none
    | none => none
  | .cls p :: rest, pos =>
    match s[pos]? with
    | some c2 => if p c2 then matchRX s rest (pos + 1) else none
    | none => none
  | .starG p :: rest, pos =>
    ((List.range (countWhile s p pos + 1)).reverse).findSome?
      (fun k => matchRX s rest (pos + k))
  | .plusG p :: rest, pos =>
    let m := countWhile s p pos
    ((List.range m).map (fun i => m - i)).findSome?
      (fun k => matchRX s rest (pos + k))
  | .starL p grp :: rest, pos =>
    (List.range (countWhile s p pos + 1)).findSome?
      (fun k => (matchRX s rest (pos + k)).map
        (fun r => (r.1, (grp, pos, pos + k) :: r.2)))

/-- The scanning loop of `re.finditer`: try to match at every position from
left to right, emit non-overlapping matches, and resume scanning at the end of
each match.  `fuel` bounds the number of scan steps; `s.length + 1` steps
always suffice because every step advances the position. -/
def findAux (s : List Char) (patt : List RX) :
    Nat → Nat → List (Nat × Nat × List (Nat × Nat × Nat))
  | 0, _ => []
  | fuel + 1, pos =>
    if pos > s.length then []
    else
      match matchRX s patt pos with
      | some (e, caps) => (pos, e, caps) :: findAux s patt fuel (max e (pos + 1))
      | none => findAux s patt fuel (pos + 1)

/-- All matches of `patt` in `s`, in the order `re.finditer` yields them. -/
def findIter (s : List Char) (patt : List RX) :
    List (Nat × Nat × List (Nat × Nat × Nat)) :=
  findAux s patt (s.length + 1) 0

instance : DecidableEq (Nat × Nat × List (Nat × Nat × Nat)) := inferInstance

/-- The hyperlink pattern of `process_text_with_hyperlinks`: the regular
expression `<a\s+[^>]*href=[PQ](.*?)[PQ][^>]*>(.*?)</a>` where `[PQ]` is the
class of a single or double quote; group 1 captures the url, group 2 the
label. -/
def hrefPattern : List RX :=
  [.ch '<', .ch 'a', .plusG isSpaceRE, .starG (fun c => c != '>'),
   .ch 'h', .ch 'r', .ch 'e', .ch 'f', .ch '=',
   .cls (fun c => c == '\'' || c == '"'),
   .starL (fun c => c != '\n') 1,
   .cls (fun c => c == '\'' || c == '"'),
   .starG (fun c => c != '>'), .ch '>',
   .starL (fun c => c != '\n') 2,
   .ch '<', .ch '/', .ch 'a', .ch '>']

/-- The tag pattern of `remove_hyperlink`: the regular expression
`<a\s+[^>]*>(.*?)</a>`, group 1 capturing the inner label. -/
def tagPattern : List RX :=
  [.ch '<', .ch 'a', .plusG isSpaceRE, .starG (fun c => c != '>'), .ch '>',
   .starL (fun c => c != '\n') 1,
   .ch '<', .ch '/', .ch 'a', .ch '>']

/-- The substring of `s` from position `a` (inclusive) to `b` (exclusive),
Python's `s[a:b]` for `0 ≤ a ≤ b`. -/
def sliceStr (s : List Char) (a b : Nat) : String :=
  String.mk ((s.drop a).take (b - a))

/-- Content of capturing group `g` of a match (empty when absent; both groups
of `hrefPattern` and group 1 of `tagPattern` are always present). -/
def capStr (s : List Char) (caps : List (Nat × Nat × Nat)) (g : Nat) : String :=
  match caps.find? (fun c => c.1 == g) with
  | some (_, a, b) => sliceStr s a b
  | none => ""

/-- The loop body of `process_text_with_hyperlinks`: walk the matches found by
`re.finditer`, emitting the literal text between matches, a hyperlink run for
each match (label = group 2, url = group 1), and finally the trailing text. -/
def buildRuns (s : List Char) :
    List (Nat × Nat × List (Nat × Nat × Nat)) → Nat → List Run
  | [], lastPos =>
    if lastPos < s.length then [Run.plain (sliceStr s lastPos s.length)] else []
  | (st, en, caps) :: ms, lastPos =>
    (if lastPos < st then [Run.plain (sliceStr s lastPos st)] else [])
      ++ Run.link (capStr s caps 2) (capStr s caps 1) :: buildRuns s ms en

/-- `ResumeGen.process_text_with_hyperlinks`, viewed as the sequence of runs it
adds to the paragraph (the spec's `toRuns`). -/
def process_text_with_hyperlinks (text : String) : List Run :=
  buildRuns text.data (findIter text.data hrefPattern) 0

/-- The replacement loop of `re.sub(tagPattern, group 1, text)`: each match is
replaced by its group-1 capture, text between matches is kept verbatim. -/
def subTags (s : List Char) :
    List (Nat × Nat × List (Nat × Nat × Nat)) → Nat → List Char
  | [], lastPos => s.drop lastPos
  | (st, en, caps) :: ms, lastPos =>
    ((s.drop lastPos).take (st - lastPos)) ++ (capStr s caps 1).data
      ++ subTags s ms en

/-- `ResumeGen.remove_hyperlink` (the spec's `stripToPlainText`): strip anchor
markup, keeping the inner label. -/
def remove_hyperlink (text : String) : String :=
  String.mk (subTags text.data (findIter text.data tagPattern) 0)

/-- The text content a run contributes: the label for a hyperlink, the text
itself for a plain run. -/
def runText : Run → String
  | .plain t => t
  | .link l _ => l

/-- Concatenated text content of a run sequence. -/
def runsText (rs : List Run) : String :=
  rs.foldl (fun acc r => acc ++ runText r) ""

/-- Insert `x` into a descending-sorted list after every element whose key is
at least `f x`: the insertion step realising Python's stable
`sorted(..., key=f, reverse=True)`. -/
def insDesc (f : α → Int) (x : α) : List α → List α
  | [] => [x]
  | y :: ys => if f x ≤ f y then y :: insDesc f x ys else x :: y :: ys

/-- Python's `sorted(l, key=f, reverse=True)`: reorder by descending key,
keeping the input order of elements with equal keys (a stable sort). -/
def sortDescBy (f : α → Int) (l : List α) : List α :=
  l.foldl (fun acc x => insDesc f x acc) []

/-- The `header` object of the resume JSON; the two fields are dictionary
entries, so each may be absent (`item["name"]` raises `KeyError`). -/
structure Header where
  name? : Option String
  title? : Option String
deriving DecidableEq, Repr

/-- An entry of a resume section.  `position`, `date` and `items` are
dictionary keys that may be absent; `id` is consumed by the sort key. -/
structure Entry where
  id : Int
  position? : Option String
  date? : Option String
  items? : Option (List String)
deriving DecidableEq, Repr

/-- A section of the resume `contents` list. -/
structure RSection where
  id : Int
  title : String
  content : List Entry
deriving DecidableEq, Repr

/-- The resume JSON payload. -/
structure ResumeData where
  header : Header
  contents : List RSection
deriving DecidableEq, Repr

/-- A node of the output document model: a heading at a given level, or a
bulleted paragraph holding a run sequence. -/
inductive Node where
  | heading (level : Nat) (text : String)
  | bullet (runs : List Run)
deriving DecidableEq, Repr

/-- Effectful map over a list that stops at the first raised error, the way a
Python `for` loop propagates an exception. -/
def mapME (f : α → Except String β) : List α → Except String (List β)
  | [] => .ok []
  | x :: xs =>
    match f x with
    | .error e => .error e
    | .ok y =>
      match mapME f xs with
      | .error e => .error e
      | .ok ys => .ok (y :: ys)

/-- The per-entry body of `generate_resume`'s inner loop: read `position`
(KeyError when absent); when it is non-empty build the level-2 heading from
`remove_hyperlink(position)`, appending ` - (date)` when `date` (read only on
this branch) is non-empty; then emit one bulleted paragraph per string of
`items`. -/
def renderEntry (item : Entry) : Except String (List Node) :=
  match item.position? with
  | none => .error "KeyError: position"
  | some pos =>
    let headNodes : Except String (List Node) :=
      if pos ≠ "" then
        match item.date? with
        | none => .error "KeyError: date"
        | some d =>
          let heading := remove_hyperlink pos
          let heading := if d ≠ "" then heading ++ " - (" ++ d ++ ")" else heading
          .ok [Node.heading 2 heading]
      else .ok []
    match headNodes with
    | .error e => .error e
    | .ok hs =>
      match item.items? with
      | none => .error "KeyError: items"
      | some its =>
        .ok (hs ++ its.map (fun b => Node.bullet (process_text_with_hyperlinks b)))

/-- The per-section body of `generate_resume`'s outer loop: a level-1 heading
with the section title, then the entries sorted by descending `id`. -/
def renderSection (datum : RSection) : Except String (List Node) :=
  match mapME renderEntry (sortDescBy (fun e => e.id) datum.content) with
  | .error e => .error e
  | .ok nss => .ok (Node.heading 1 datum.title :: nss.flatten)

/-- `ResumeGen.generate_resume` up to `doc.save`: the document model it
builds, or the exception it propagates. -/
def generate_resume (resume_data : ResumeData) : Except String (List Node) :=
  match resume_data.header.name? with
  | none => .error "KeyError: name"
  | some name =>
    match resume_data.header.title? with
    | none => .error "KeyError: title"
    | some title =>
      match mapME renderSection (sortDescBy (fun s => s.id) resume_data.contents) with
      | .error e => .error e
      | .ok nss => .ok (Node.heading 0 name :: Node.heading 3 title :: nss.flatten)

/-- The resume pipeline's effect on the filesystem: `doc.save(output_file)` is
the last statement of the `try` block, so a file exists exactly when the whole
model was built without an exception. -/
def resumeOutputFile (d : ResumeData) : Option (List Node) :=
  match generate_resume d with
  | .ok nodes => some nodes
  | .error _ => none

/-- Heading text the spec prescribes for an entry: `stripToPlainText(position)`
with ` - ({date})` appended when the date is non-empty. -/
def specEntryHeading (pos d : String) : String :=
  if d ≠ "" then remove_hyperlink pos ++ " - (" ++ d ++ ")"
  else remove_hyperlink pos

/-- The node sequence the spec prescribes for one entry: a level-2 heading
when the position is non-empty, then one bulleted paragraph per item string in
given order. -/
def specEntryNodes (e : Entry) : List Node :=
  (if e.position?.getD "" ≠ "" then
      [Node.heading 2 (specEntryHeading (e.position?.getD "") (e.date?.getD ""))]
    else [])
    ++ (e.items?.getD []).map (fun b => Node.bullet (process_text_with_hyperlinks b))

/-- The node sequence the spec prescribes for one section: its title at
level 1, then its entries in render order. -/
def specSectionNodes (sec : RSection) : List Node :=
  Node.heading 1 sec.title
    :: ((sortDescBy (fun e => e.id) sec.content).map specEntryNodes).flatten

/-- The full node sequence the spec prescribes: name at level 0, title at
level 3, then the sections in render order. -/
def specRender (d : ResumeData) : List Node :=
  Node.heading 0 (d.header.name?.getD "")
    :: Node.heading 3 (d.header.title?.getD "")
    :: ((sortDescBy (fun s => s.id) d.contents).map specSectionNodes).flatten

/-- All dictionary keys the renderer reads are present — the spec's data
model: the header has name and title, every entry has position, date and
items. -/
@[reducible] def WellFormedResume (d : ResumeData) : Prop :=
  d.header.name?.isSome ∧ d.header.title?.isSome ∧
    ∀ sec ∈ d.contents, ∀ e ∈ sec.content,
      e.position?.isSome ∧ e.date?.isSome ∧ e.items?.isSome

/-- Concrete payload exercising the sort policy: section ids `[3, 1, 2]` and,
inside the first section, two entries sharing id 2. -/
def tieData : ResumeData :=
  { header := { name? := some "N", title? := some "T" },
    contents :=
      [ { id := 3, title := "A",
          content :=
            [ { id := 2, position? := some "P1", date? := some "", items? := some [] },
              { id := 2, position? := some "P2", date? := some "", items? := some [] } ] },
        { id := 1, title := "B", content := [] },
        { id := 2, title := "C", content := [] } ] }

/-- A payload whose header lacks `name`. -/
def missingNameData : ResumeData :=
  { header := { name? := none, title? := some "T" }, contents := [] }

/-- A payload whose single entry lacks the `date` key while its position is
empty. -/
def emptyPosNoDateData : ResumeData :=
  { header := { name? := some "N", title? := some "T" },
    contents :=
      [ { id := 1, title := "S",
          content := [ { id := 1, position? := some "", date? := none, items? := some [] } ] } ] }

/-- A fully well-formed one-entry payload. -/
def okResumeData : ResumeData :=
  { header := { name? := some "N", title? := some "T" },
    contents :=
      [ { id := 1, title := "S",
          content := [ { id := 1, position? := some "P", date? := some "", items? := some [] } ] } ] }

end ResumeGen

namespace CoverLetter

open ResumeGen (isSpaceRE)

/-- The data dictionary built by `cover_letter.main`, in its insertion order
`name, address, phone, email, date, position, company`. -/
structure CLData where
  name : String
  address : String
  phone : String
  email : String
  date : String
  position : String
  company : String
deriving DecidableEq, Repr

/-- One scan step list of Python `str.replace`: replace every non-overlapping
occurrence of `pat` by `rep`, scanning left to right.  `fuel` bounds the scan;
`s.length` steps suffice because each step consumes at least one character
when `pat` is non-empty. -/
def strReplaceAux (pat rep : List Char) : Nat → List Char → List Char
  | _, [] => []
  | 0, s => s
  | fuel + 1, c :: cs =>
    if pat.isPrefixOf (c :: cs) then
      rep ++ strReplaceAux pat rep fuel ((c :: cs).drop pat.length)
    else c :: strReplaceAux pat rep fuel cs

/-- Python `s.replace(pat, rep)` for the non-empty placeholder keys used by
the template substitution. -/
def strReplace (s pat rep : List Char) : List Char :=
  if pat.isEmpty then s else strReplaceAux pat rep s.length s

/-- The placeholder-substitution loop of `create_cover_letter`: for each
`(key, value)` of the data dictionary in insertion order, replace every
occurrence of `$key` by `value` in the accumulated content. -/
def substituteAll (data : CLData) (template : List Char) : List Char :=
  let t := strReplace template "$name".data data.name.data
  let t := strReplace t "$address".data data.address.data
  let t := strReplace t "$phone".data data.phone.data
  let t := strReplace t "$email".data data.email.data
  let t := strReplace t "$date".data data.date.data
  let t := strReplace t "$position".data data.position.data
  strReplace t "$company".data data.company.data

/-- Python `str.strip()` restricted to ASCII whitespace. -/
def stripWS (s : List Char) : List Char :=
  ((s.dropWhile isSpaceRE).reverse.dropWhile isSpaceRE).reverse

/-- Python `content.split('\n')`: split at every newline, keeping empty
pieces. -/
def splitNL : List Char → List (List Char)
  | [] => [[]]
  | c :: cs =>
    match splitNL cs with
    | h :: t => if c == '\n' then [] :: h :: t else (c :: h) :: t
    | [] => if c == '\n' then [[], []] else [[c]]

/-- Python list indexing with negative-index wraparound: `l[i]` for an `Int`
index, `none` when out of range (an `IndexError`). -/
def pyGet (l : List α) (i : Int) : Option α :=
  if i < 0 then
    if (-i).toNat ≤ l.length then l[(l.length - (-i).toNat)]? else none
  else l[i.toNat]?

/-- A paragraph of the cover letter, tagged by the branch of the classifier
that produced it: the salutation branch, the closing branch (12pt space
before), the signature-name branch, and the two arms of the final `else` —
a header-block line (6pt space after) or a body line (12pt space before and
after). -/
inductive Para where
  | salutation (text : String)
  | closing (text : String)
  | signatureName (text : String)
  | headerLine (text : String)
  | body (text : String)
deriving DecidableEq, Repr

/-- The body of the line loop in `create_cover_letter`: strip the line, skip
it when blank, then classify it along the if/elif chain of the source.  The
signature check evaluates `lines[lines.index(line) - 1]`: the first index of
the stripped text within the whole raw line list (a `ValueError` when absent,
only evaluated when the line equals `data['name']`), stepping back one index
with Python's negative-index wraparound. -/
def classifyLine (data : CLData) (lines : List (List Char)) (raw : List Char) :
    Except String (Option Para) :=
  let line := stripWS raw
  if line.isEmpty then .ok none
  else if line == "Dear Hiring Manager,".data then
    .ok (some (.salutation (String.mk line)))
  else if line == "Sincerely,".data then
    .ok (some (.closing (String.mk line)))
  else
    let sig : Except String Bool :=
      if line == data.name.data then
        match lines.findIdx? (fun l => l == line) with
        | none => .error "ValueError: x not in list"
        | some i =>
          match pyGet lines ((i : Int) - 1) with
          | none => .error "IndexError: list index out of range"
          | some prev => .ok (stripWS prev == "Sincerely,".data)
      else .ok false
    match sig with
    | .error e => .error e
    | .ok true => .ok (some (.signatureName (String.mk line)))
    | .ok false =>
      if line == data.name.data || line == data.address.data
          || line == (data.phone ++ " | " ++ data.email).data
          || line == data.date.data then
        .ok (some (.headerLine (String.mk line)))
      else .ok (some (.body (String.mk line)))

/-- The full line loop of `create_cover_letter`, collecting the emitted
paragraphs in order and propagating the first exception. -/
def classifyLines (data : CLData) (lines : List (List Char)) :
    List (List Char) → Except String (List Para)
  | [] => .ok []
  | raw :: rest =>
    match classifyLine data lines raw with
    | .error e => .error e
    | .ok o =>
      match classifyLines data lines rest with
      | .error e => .error e
      | .ok ps => .ok (o.toList ++ ps)

/-- `create_cover_letter` up to `doc.save`: substitute the placeholders, split
into lines and classify each line, producing the paragraph sequence of the
document (or the propagated exception). -/
def create_cover_letter (data : CLData) (template : String) :
    Except String (List Para) :=
  let lines := splitNL (substituteAll data template.data)
  classifyLines data lines lines

/-- The required header fields checked by `cover_letter.main`, in source
order. -/
def requiredFields : List String := ["name", "phone", "email", "address"]

/-- Truth of `field not in header or not header[field]` for a JSON header
modelled as an association list: absent, or mapped to an empty (falsy)
string. -/
def missingOrEmpty (header : List (String × String)) (f : String) : Bool :=
  match header.lookup f with
  | none => true
  | some v => v == ""

/-- The `ValueError` message raised for a failing field. -/
def fieldMsg (f : String) : String :=
  "Missing or empty field '" ++ f ++ "' in JSON header"

/-- The validation loop of `cover_letter.main`: walk the required fields in
order and raise at the first one that is missing or empty. -/
def checkFields (header : List (String × String)) :
    List String → Except String Unit
  | [] => .ok ()
  | f :: fs =>
    if missingOrEmpty header f then .error (fieldMsg f)
    else checkFields header fs

/-- Python `header[field]`: a `KeyError` when the key is absent. -/
def keyLookup (header : List (String × String)) (f : String) :
    Except String String :=
  match header.lookup f with
  | some v => .ok v
  | none => .error ("KeyError: " ++ f)

/-- The cover-letter path of `main` from loaded JSON to built document:
validate the header, build the data dictionary, then render.  `dateStr`,
`position` and `company` come from the clock and the command line. -/
def coverMain (header : List (String × String)) (template : String)
    (position company dateStr : String) : Except String (List Para) :=
  match checkFields header requiredFields with
  | .error e => .error e
  | .ok _ =>
    match keyLookup header "name", keyLookup header "address",
          keyLookup header "phone", keyLookup header "email" with
    | .ok n, .ok a, .ok p, .ok em =>
      create_cover_letter
        { name := n, address := a, phone := p, email := em,
          date := dateStr, position := position, company := company } template
    | .error e, _, _, _ => .error e
    | _, .error e, _, _ => .error e
    | _, _, .error e, _ => .error e
    | _, _, _, .error e => .error e

/-- The cover-letter pipeline's effect on the filesystem: `doc.save` is the
last statement of the `try` block, so a file exists exactly when the whole
paragraph sequence was built without an exception. -/
def coverOutputFile (data : CLData) (template : String) : Option (List Para) :=
  match create_cover_letter data template with
  | .ok ps => some ps
  | .error _ => none

/-- The data dictionary of the spec's cover-letter test scenario, with
`name = "Ann"` and unexceptional values elsewhere. -/
def annData : CLData :=
  { name := "Ann", address := "1 Way", phone := "555", email := "a@b.c",
    date := "May 24, 2025", position := "Eng", company := "Acme" }

/-- The template of the spec's cover-letter test scenario. -/
def annTemplate : String := "Dear Hiring Manager,\n\n$name\n\nSincerely,\n$name"

/-- Whether `pat` occurs as a contiguous subsequence of `s` (used to state
what an error message does and does not mention). -/
def containsSub (s pat : List Char) : Bool :=
  (List.range (s.length + 1)).any (fun i => pat.isPrefixOf (s.drop i))

end CoverLetter

deriving instance DecidableEq for Except

namespace ResumeGen

theorem mem_insDesc {f : α → Int} (x z : α) (l : List α) :
    z ∈ insDesc f x l ↔ z = x ∨ z ∈ l := by
  induction l with
  | nil => simp [insDesc]
  | cons y ys ih =>
    by_cases h : f x ≤ f y
    · simp only [insDesc, if_pos h, List.mem_cons, ih]
      tauto
    · simp [insDesc, if_neg h, List.mem_cons]

theorem pairwise_insDesc {f : α → Int} {x : α} {l : List α}
    (hl : l.Pairwise (fun a b => f b ≤ f a)) :
    (insDesc f x l).Pairwise (fun a b => f b ≤ f a) := by
  induction l with
  | nil => simp [insDesc]
  | cons y ys ih =>
    rcases List.pairwise_cons.mp hl with ⟨hy, hys⟩
    by_cases h : f x ≤ f y
    · rw [insDesc, if_pos h]
      refine List.pairwise_cons.mpr ⟨?_, ih hys⟩
      intro z hz
      rcases (mem_insDesc x z ys).mp hz with rfl | hzys
      · exact h
      · exact hy z hzys
    · rw [insDesc, if_neg h]
      refine List.pairwise_cons.mpr ⟨?_, hl⟩
      intro z hz
      rcases List.mem_cons.mp hz with rfl | hzys
      · exact (not_le.mp h).le
      · exact le_trans (hy z hzys) (not_le.mp h).le

theorem pairwise_sortFold {f : α → Int} (l : List α) :
    ∀ acc : List α, acc.Pairwise (fun a b => f b ≤ f a) →
      (l.foldl (fun acc x => insDesc f x acc) acc).Pairwise (fun a b => f b ≤ f a) := by
  induction l with
  | nil => intro acc h; simpa using h
  | cons x xs ih =>
    intro acc h
    exact ih _ (pairwise_insDesc h)

/-- The rendered order is descending in the sort key. -/
theorem sortDescBy_sorted {f : α → Int} (l : List α) :
    (sortDescBy f l).Pairwise (fun a b => f b ≤ f a) :=
  pairwise_sortFold l [] (by simp)

theorem filter_insDesc_pos {f : α → Int} {k : Int} {x : α} {l : List α}
    (hl : l.Pairwise (fun a b => f b ≤ f a)) (hx : f x = k) :
    (insDesc f x l).filter (fun a => decide (f a = k))
      = l.filter (fun a => decide (f a = k)) ++ [x] := by
  induction l with
  | nil => simp [insDesc, hx]
  | cons y ys ih =>
    rcases List.pairwise_cons.mp hl with ⟨hy, hys⟩
    by_cases h : f x ≤ f y
    · rw [insDesc, if_pos h]
      by_cases hyk : f y = k
      · simp [List.filter_cons, hyk, ih hys]
      · simp [List.filter_cons, hyk, ih hys]
    · rw [insDesc, if_neg h]
      have hylt : f y < f x := not_le.mp h
      have hyk : ¬ f y = k := by omega
      have hall : ys.filter (fun a => decide (f a = k)) = [] := by
        apply List.filter_eq_nil_iff.mpr
        intro a ha
        have := hy a ha
        simp only [decide_eq_true_eq]
        omega
      simp [List.filter_cons, hx, hyk, hall]

theorem filter_insDesc_neg {f : α → Int} {k : Int} {x : α} {l : List α}
    (hx : ¬ f x = k) :
    (insDesc f x l).filter (fun a => decide (f a = k))
      = l.filter (fun a => decide (f a = k)) := by
  induction l with
  | nil => simp [insDesc, hx]
  | cons y ys ih =>
    by_cases h : f x ≤ f y
    · rw [insDesc, if_pos h]
      simp [List.filter_cons, ih]
    · rw [insDesc, if_neg h]
      simp [List.filter_cons, hx]

theorem filter_sortFold {f : α → Int} {k : Int} (l : List α) :
    ∀ acc : List α, acc.Pairwise (fun a b => f b ≤ f a) →
      (l.foldl (fun acc x => insDesc f x acc) acc).filter (fun a => decide (f a = k))
        = acc.filter (fun a => decide (f a = k)) ++ l.filter (fun a => decide (f a = k)) := by
  induction l with
  | nil => intro acc h; simp
  | cons x xs ih =>
    intro acc h
    have step := ih (insDesc f x acc) (pairwise_insDesc h)
    rw [List.foldl_cons] at *
    by_cases hx : f x = k
    · rw [step, filter_insDesc_pos h hx, List.filter_cons, if_pos (by simp [hx])]
      simp [List.append_assoc]
    · rw [step, filter_insDesc_neg hx, List.filter_cons, if_neg (by simp [hx])]

/-- Stability: the subsequence of elements with any fixed key is unchanged by
the sort. -/
theorem sortDescBy_stable {f : α → Int} (k : Int) (l : List α) :
    (sortDescBy f l).filter (fun a => decide (f a = k))
      = l.filter (fun a => decide (f a = k)) := by
  simpa [sortDescBy] using filter_sortFold l [] (by simp)

theorem mem_sortFold {f : α → Int} (l : List α) :
    ∀ (acc : List α) (z : α),
      z ∈ l.foldl (fun acc x => insDesc f x acc) acc ↔ z ∈ acc ∨ z ∈ l := by
  induction l with
  | nil => intro acc z; simp
  | cons x xs ih =>
    intro acc z
    rw [List.foldl_cons, ih, mem_insDesc]
    simp only [List.mem_cons]
    tauto

theorem mem_sortDescBy {f : α → Int} {l : List α} {z : α} :
    z ∈ sortDescBy f l ↔ z ∈ l := by
  simpa [sortDescBy] using mem_sortFold (f := f) l [] z

theorem mapME_ok_of_forall {f : α → Except String β} {g : α → β} :
    ∀ {l : List α}, (∀ x ∈ l, f x = .ok (g x)) → mapME f l = .ok (l.map g) := by
  intro l
  induction l with
  | nil => intro _; rfl
  | cons x xs ih =>
    intro h
    rw [mapME, h x (by simp), ih (fun y hy => h y (by simp [hy]))]
    rfl

theorem mapME_ok_mem {f : α → Except String β} :
    ∀ {l : List α} {r : List β}, mapME f l = .ok r → ∀ x ∈ l, ∃ y, f x = .ok y := by
  intro l
  induction l with
  | nil => intro r _ x hx; cases hx
  | cons z zs ih =>
    intro r h x hx
    rw [mapME] at h
    cases hz : f z with
    | error e => rw [hz] at h; cases h
    | ok y =>
      rw [hz] at h
      cases hms : mapME f zs with
      | error e => rw [hms] at h; cases h
      | ok ys =>
        rcases List.mem_cons.mp hx with rfl | hxs
        · exact ⟨y, hz⟩
        · exact ih hms x hxs

theorem renderEntry_eq_spec (e : Entry)
    (hp : e.position?.isSome) (hd : e.date?.isSome) (hi : e.items?.isSome) :
    renderEntry e = .ok (specEntryNodes e) := by
  obtain ⟨i, po, da, it⟩ := e
  cases po with
  | none => simp at hp
  | some p =>
    cases da with
    | none => simp at hd
    | some d =>
      cases it with
      | none => simp at hi
      | some its =>
        by_cases hpe : p = ""
        · subst hpe
          simp [renderEntry, specEntryNodes]
        · by_cases hde : d = ""
          · subst hde
            simp [renderEntry, specEntryNodes, specEntryHeading, hpe]
          · simp [renderEntry, specEntryNodes, specEntryHeading, hpe, hde]

theorem renderSection_eq_spec (sec : RSection)
    (h : ∀ e ∈ sec.content, e.position?.isSome ∧ e.date?.isSome ∧ e.items?.isSome) :
    renderSection sec = .ok (specSectionNodes sec) := by
  have hall : ∀ e ∈ sortDescBy (fun e => e.id) sec.content,
      renderEntry e = .ok (specEntryNodes e) := by
    intro e he
    obtain ⟨h1, h2, h3⟩ := h e (mem_sortDescBy.mp he)
    exact renderEntry_eq_spec e h1 h2 h3
  simp [renderSection, mapME_ok_of_forall hall, specSectionNodes]

theorem generate_resume_missing_header (d : ResumeData)
    (h : d.header.name? = none ∨ d.header.title? = none) :
    ∃ e, generate_resume d = .error e := by
  rcases h with h | h
  · exact ⟨"KeyError: name", by simp [generate_resume, h]⟩
  · cases hn : d.header.name? with
    | none => exact ⟨"KeyError: name", by simp [generate_resume, hn]⟩
    | some n => exact ⟨"KeyError: title", by simp [generate_resume, hn, h]⟩

theorem renderEntry_ok_keys {e : Entry} {ns : List Node}
    (h : renderEntry e = .ok ns) :
    e.position?.isSome ∧ e.items?.isSome
      ∧ (∀ p, e.position? = some p → p ≠ "" → e.date?.isSome) := by
  cases hp : e.position? with
  | none => rw [renderEntry, hp] at h; cases h
  | some p =>
    by_cases hpe : p = ""
    · subst hpe
      cases hi : e.items? with
      | none => simp [renderEntry, hp, hi] at h
      | some its =>
        refine ⟨by simp [hp], by simp [hi], ?_⟩
        intro q hq hqne
        injection hq with hq
        exact absurd hq.symm hqne
    · cases hd : e.date? with
      | none => simp [renderEntry, hp, hd, hpe] at h
      | some dd =>
        cases hi : e.items? with
        | none => simp [renderEntry, hp, hd, hpe, hi] at h
        | some its => exact ⟨by simp [hp], by simp [hi], fun q _ _ => by simp [hd]⟩

end ResumeGen

namespace CoverLetter

theorem checkFields_find? {header : List (String × String)} {f : String} :
    ∀ {fs : List String}, fs.find? (missingOrEmpty header) = some f →
      checkFields header fs = .error (fieldMsg f) := by
  intro fs
  induction fs with
  | nil => intro h; cases h
  | cons g gs ih =>
    intro h
    by_cases hg : missingOrEmpty header g
    · rw [List.find?_cons_of_pos _ hg] at h
      injection h with h
      subst h
      rw [checkFields, if_pos hg]
    · rw [List.find?_cons_of_neg _ hg] at h
      rw [checkFields, if_neg hg]
      exact ih h

theorem checkFields_error_of_mem {header : List (String × String)} {f : String}
    (hmf : missingOrEmpty header f = true) :
    ∀ {fs : List String}, f ∈ fs → ∃ m, checkFields header fs = .error m := by
  intro fs
  induction fs with
  | nil => intro h; cases h
  | cons g gs ih =>
    intro h
    by_cases hg : missingOrEmpty header g
    · exact ⟨fieldMsg g, by rw [checkFields, if_pos hg]⟩
    · rcases List.mem_cons.mp h with rfl | hgs
      · exact absurd hmf hg
      · obtain ⟨m, hm⟩ := ih hgs
        exact ⟨m, by rw [checkFields, if_neg hg]; exact hm⟩

theorem coverMain_error {header : List (String × String)} {m : String}
    (h : checkFields header requiredFields = .error m)
    (t p c ds : String) : coverMain header t p c ds = .error m := by
  simp [coverMain, h]

end CoverLetter

/-- C1: for every resume payload with the header fields name and title present
(and, per the spec's data model, every entry carrying its position, date and
items keys), `generate_resume` succeeds and emits exactly the node sequence
the claim prescribes (`specRender`): a level-0 heading with the name, a
level-3 heading with the title, then per section a level-1 heading with its
title and per entry a level-2 heading built from
`stripToPlainText(position)` plus the ` - ({date})` suffix when the position
is non-empty, followed by one bulleted paragraph per item string in given
order — so heading levels encode nesting and no bullet precedes its owning
entry's heading. -/
theorem c1_render_structure (d : ResumeGen.ResumeData)
    (h : ResumeGen.WellFormedResume d) :
    ResumeGen.generate_resume d = .ok (ResumeGen.specRender d) := by
  obtain ⟨hn, ht, hs⟩ := h
  obtain ⟨n, hn2⟩ := Option.isSome_iff_exists.mp hn
  obtain ⟨t, ht2⟩ := Option.isSome_iff_exists.mp ht
  have hall : ∀ sec ∈ ResumeGen.sortDescBy (fun s => s.id) d.contents,
      ResumeGen.renderSection sec = .ok (ResumeGen.specSectionNodes sec) := by
    intro sec hsec
    exact ResumeGen.renderSection_eq_spec sec (hs sec (ResumeGen.mem_sortDescBy.mp hsec))
  simp [ResumeGen.generate_resume, hn2, ht2, ResumeGen.mapME_ok_of_forall hall,
    ResumeGen.specRender]

theorem c1_witness :
    ResumeGen.WellFormedResume ResumeGen.okResumeData
  ∧ ResumeGen.generate_resume ResumeGen.okResumeData
      = .ok (ResumeGen.specRender ResumeGen.okResumeData) :=
  ⟨by decide, c1_render_structure ResumeGen.okResumeData (by decide)⟩

/-- C2: sections and entries are reordered by descending id through
`sortDescBy`, which (i) always yields a key-descending list, (ii) is stable —
the subsequence of elements at any fixed key keeps its input order, (iii)
sorts ids `[3, 1, 2]` to `[3, 2, 1]`, and (iv) on `tieData` (section ids
`[3, 1, 2]`, two entries sharing id 2) renders the sections in id order
3, 2, 1 with the tied entries P1, P2 kept in input order. -/
theorem c2_sort_desc_stable :
    (∀ {α : Type} (f : α → Int) (l : List α),
        (ResumeGen.sortDescBy f l).Pairwise (fun a b => f b ≤ f a))
  ∧ (∀ {α : Type} (f : α → Int) (k : Int) (l : List α),
        (ResumeGen.sortDescBy f l).filter (fun a => decide (f a = k))
          = l.filter (fun a => decide (f a = k)))
  ∧ ResumeGen.sortDescBy (fun x : Int => x) [3, 1, 2] = [3, 2, 1]
  ∧ ResumeGen.generate_resume ResumeGen.tieData
      = .ok [ResumeGen.Node.heading 0 "N", ResumeGen.Node.heading 3 "T",
             ResumeGen.Node.heading 1 "A",
             ResumeGen.Node.heading 2 "P1", ResumeGen.Node.heading 2 "P2",
             ResumeGen.Node.heading 1 "C", ResumeGen.Node.heading 1 "B"] := by
  refine ⟨?_, ?_, by decide, by decide⟩
  · intro α f l
    exact ResumeGen.sortDescBy_sorted l
  · intro α f k l
    exact ResumeGen.sortDescBy_stable k l

/-- C3 counterexample: the empty string contains zero inline anchors (neither
pattern matches), yet `toRuns` yields no run at all rather than exactly one
plain run equal to the text. -/
theorem c3_counterexample :
    ResumeGen.findIter "".data ResumeGen.hrefPattern = []
  ∧ ResumeGen.findIter "".data ResumeGen.tagPattern = []
  ∧ ResumeGen.process_text_with_hyperlinks "" = []
  ∧ ¬ ResumeGen.process_text_with_hyperlinks "" = [ResumeGen.Run.plain ""] := by
  decide

/-- C3 (amended): for every non-empty text in which the scanner finds no
anchor of either pattern, `toRuns` yields exactly one plain run equal to the
text, and `stripToPlainText` returns the text unchanged (the latter holds for
the empty text as well; `toRuns` of the empty text yields no run). -/
theorem c3_no_anchor_identity (t : String) (hne : t ≠ "")
    (h1 : ResumeGen.findIter t.data ResumeGen.hrefPattern = [])
    (h2 : ResumeGen.findIter t.data ResumeGen.tagPattern = []) :
    ResumeGen.process_text_with_hyperlinks t = [ResumeGen.Run.plain t]
  ∧ ResumeGen.remove_hyperlink t = t := by
  have hd : t.data ≠ [] := by
    intro hd
    apply hne
    cases t with
    | mk l =>
      simp only at hd
      subst hd
      rfl
  constructor
  · show ResumeGen.buildRuns t.data (ResumeGen.findIter t.data ResumeGen.hrefPattern) 0
        = [ResumeGen.Run.plain t]
    rw [h1]
    show (if 0 < t.data.length then
        [ResumeGen.Run.plain (ResumeGen.sliceStr t.data 0 t.data.length)] else [])
      = [ResumeGen.Run.plain t]
    rw [if_pos (List.length_pos.mpr hd)]
    have hsl : ResumeGen.sliceStr t.data 0 t.data.length = t := by
      simp only [ResumeGen.sliceStr, List.drop_zero, Nat.sub_zero, List.take_length]
    rw [hsl]
  · show String.mk (ResumeGen.subTags t.data (ResumeGen.findIter t.data ResumeGen.tagPattern) 0)
        = t
    rw [h2]
    show String.mk (t.data.drop 0) = t
    rw [List.drop_zero]

theorem c3_witness :
    (("hi" : String) ≠ ""
      ∧ ResumeGen.findIter "hi".data ResumeGen.hrefPattern = []
      ∧ ResumeGen.findIter "hi".data ResumeGen.tagPattern = [])
  ∧ (ResumeGen.process_text_with_hyperlinks "hi" = [ResumeGen.Run.plain "hi"]
      ∧ ResumeGen.remove_hyperlink "hi" = "hi") :=
  ⟨⟨by decide, by decide, by decide⟩,
    c3_no_anchor_identity "hi" (by decide) (by decide) (by decide)⟩

/-- C4 counterexample: with the spec's template and `name = "Ann"`, the
rendered paragraph sequence is not
`[salutation, body("Ann"), closing, signatureName("Ann")]`. -/
theorem c4_counterexample :
    CoverLetter.create_cover_letter CoverLetter.annData CoverLetter.annTemplate
      ≠ .ok [CoverLetter.Para.salutation "Dear Hiring Manager,",
             CoverLetter.Para.body "Ann",
             CoverLetter.Para.closing "Sincerely,",
             CoverLetter.Para.signatureName "Ann"] := by
  decide

/-- C4 (amended): both occurrences of "Ann" are classified as header-block
lines (6pt space after), neither as body nor as signatureName: the signature
check resolves `lines.index("Ann")` to the first occurrence (index 2), whose
preceding line is blank, so even the final "Ann" fails the signature test,
and both occurrences then match `data.name` in the header-line rule. -/
theorem c4_classification :
    CoverLetter.create_cover_letter CoverLetter.annData CoverLetter.annTemplate
      = .ok [CoverLetter.Para.salutation "Dear Hiring Manager,",
             CoverLetter.Para.headerLine "Ann",
             CoverLetter.Para.closing "Sincerely,",
             CoverLetter.Para.headerLine "Ann"]
  ∧ (CoverLetter.splitNL
        (CoverLetter.substituteAll CoverLetter.annData CoverLetter.annTemplate.data)).findIdx?
      (fun l => l == "Ann".data) = some 2 := by
  decide

/-- C5 counterexample: with both name and phone missing (email and address
present), the reported validation error names only `name`; the message does
not mention `phone`, so the error does not cover the full list of missing
fields. -/
theorem c5_counterexample :
    CoverLetter.checkFields [("email", "e"), ("address", "a")]
        CoverLetter.requiredFields = .error (CoverLetter.fieldMsg "name")
  ∧ CoverLetter.containsSub (CoverLetter.fieldMsg "name").data "phone".data = false := by
  decide

/-- C5 (amended): header validation runs before any rendering — `coverMain`
fails with the validation error no matter what the template holds — but it
reports only the first missing-or-empty field in the order name, phone,
email, address, not the full list. -/
theorem c5_first_failure (header : List (String × String)) (f : String)
    (h : CoverLetter.requiredFields.find? (CoverLetter.missingOrEmpty header) = some f)
    (t p c ds : String) :
    CoverLetter.checkFields header CoverLetter.requiredFields
      = .error (CoverLetter.fieldMsg f)
  ∧ CoverLetter.coverMain header t p c ds = .error (CoverLetter.fieldMsg f) := by
  have h1 := CoverLetter.checkFields_find? h
  exact ⟨h1, CoverLetter.coverMain_error h1 t p c ds⟩

theorem c5_witness :
    CoverLetter.requiredFields.find? (CoverLetter.missingOrEmpty []) = some "name"
  ∧ (CoverLetter.checkFields [] CoverLetter.requiredFields
        = .error (CoverLetter.fieldMsg "name")
      ∧ CoverLetter.coverMain [] "tpl" "p" "c" "d"
        = .error (CoverLetter.fieldMsg "name")) :=
  ⟨by decide, c5_first_failure [] "name" (by decide) "tpl" "p" "c" "d"⟩

/-- C6: a resume payload lacking `header.name` or `header.title` raises and no
output file is created; more generally, for both pipelines the output file is
written only after the entire document model is built, so any construction
failure leaves no output file. -/
theorem c6_no_partial_output :
    (∀ d : ResumeGen.ResumeData,
        d.header.name? = none ∨ d.header.title? = none →
          (∃ e, ResumeGen.generate_resume d = .error e)
            ∧ ResumeGen.resumeOutputFile d = none)
  ∧ (∀ (d : ResumeGen.ResumeData) (e : String),
        ResumeGen.generate_resume d = .error e →
          ResumeGen.resumeOutputFile d = none)
  ∧ (∀ (data : CoverLetter.CLData) (tmpl e : String),
        CoverLetter.create_cover_letter data tmpl = .error e →
          CoverLetter.coverOutputFile data tmpl = none) := by
  refine ⟨?_, ?_, ?_⟩
  · intro d h
    obtain ⟨e, he⟩ := ResumeGen.generate_resume_missing_header d h
    exact ⟨⟨e, he⟩, by simp [ResumeGen.resumeOutputFile, he]⟩
  · intro d e he
    simp [ResumeGen.resumeOutputFile, he]
  · intro data tmpl e he
    simp [CoverLetter.coverOutputFile, he]

theorem c6_witness :
    (ResumeGen.missingNameData.header.name? = none
        ∨ ResumeGen.missingNameData.header.title? = none)
  ∧ ((∃ e, ResumeGen.generate_resume ResumeGen.missingNameData = .error e)
      ∧ ResumeGen.resumeOutputFile ResumeGen.missingNameData = none) :=
  ⟨Or.inl rfl, c6_no_partial_output.1 ResumeGen.missingNameData (Or.inl rfl)⟩

/-- C7: on `"A <a href='u'>L</a> B"` (single-quoted href attribute), `toRuns`
yields exactly the runs `[plain("A "), hyperlink("L","u"), plain(" B")]` in
that order, and `stripToPlainText` yields `"A L B"`. -/
theorem c7_single_quoted_anchor :
    ResumeGen.process_text_with_hyperlinks "A <a href='u'>L</a> B"
      = [ResumeGen.Run.plain "A ", ResumeGen.Run.link "L" "u",
         ResumeGen.Run.plain " B"]
  ∧ ResumeGen.remove_hyperlink "A <a href='u'>L</a> B" = "A L B" := by
  decide

/-- C8: on an `<a>` tag with attributes but no quoted href,
`stripToPlainText` replaces the tag by its inner label while `toRuns` leaves
the whole tag verbatim as plain text, so the concatenated text content of
`toRuns` differs from `stripToPlainText` on this input. -/
theorem c8_divergent_tag_shapes :
    ResumeGen.process_text_with_hyperlinks "<a class='x'>L</a>"
      = [ResumeGen.Run.plain "<a class='x'>L</a>"]
  ∧ ResumeGen.remove_hyperlink "<a class='x'>L</a>" = "L"
  ∧ ResumeGen.runsText (ResumeGen.process_text_with_hyperlinks "<a class='x'>L</a>")
      ≠ ResumeGen.remove_hyperlink "<a class='x'>L</a>" := by
  decide

/-- C9 counterexample: an entry lacking the `date` key whose `position` is
empty renders without error — the render does not abort, contradicting the
claim that every entry must contain `date`. -/
theorem c9_counterexample :
    (∃ sec ∈ ResumeGen.emptyPosNoDateData.contents, ∃ e ∈ sec.content, e.date? = none)
  ∧ ResumeGen.generate_resume ResumeGen.emptyPosNoDateData
      = .ok [ResumeGen.Node.heading 0 "N", ResumeGen.Node.heading 3 "T",
             ResumeGen.Node.heading 1 "S"] := by
  decide

/-- C9 (amended): a successful render requires every entry to carry
`position` and `items`, and `date` whenever its position is non-empty;
equivalently, an entry lacking `position` or `items`, or lacking `date` while
its position is non-empty, makes the whole render raise a key-lookup error. -/
theorem c9_required_keys (d : ResumeGen.ResumeData) (ns : List ResumeGen.Node)
    (h : ResumeGen.generate_resume d = .ok ns) :
    ∀ sec ∈ d.contents, ∀ e ∈ sec.content,
      e.position?.isSome ∧ e.items?.isSome
        ∧ (∀ p, e.position? = some p → p ≠ "" → e.date?.isSome) := by
  intro sec hsec e he
  cases hn : d.header.name? with
  | none => simp [ResumeGen.generate_resume, hn] at h
  | some n =>
    cases ht : d.header.title? with
    | none => simp [ResumeGen.generate_resume, hn, ht] at h
    | some t =>
      cases hm : ResumeGen.mapME ResumeGen.renderSection
          (ResumeGen.sortDescBy (fun s => s.id) d.contents) with
      | error e2 => simp [ResumeGen.generate_resume, hn, ht, hm] at h
      | ok nss =>
        obtain ⟨y, hy⟩ :=
          ResumeGen.mapME_ok_mem hm sec (ResumeGen.mem_sortDescBy.mpr hsec)
        cases hme : ResumeGen.mapME ResumeGen.renderEntry
            (ResumeGen.sortDescBy (fun e => e.id) sec.content) with
        | error e2 => simp [ResumeGen.renderSection, hme] at hy
        | ok zs =>
          obtain ⟨z, hz⟩ :=
            ResumeGen.mapME_ok_mem hme e (ResumeGen.mem_sortDescBy.mpr he)
          exact ResumeGen.renderEntry_ok_keys hz

theorem c9_witness :
    ResumeGen.generate_resume ResumeGen.okResumeData
      = .ok [ResumeGen.Node.heading 0 "N", ResumeGen.Node.heading 3 "T",
             ResumeGen.Node.heading 1 "S", ResumeGen.Node.heading 2 "P"]
  ∧ (∀ sec ∈ ResumeGen.okResumeData.contents, ∀ e ∈ sec.content,
      e.position?.isSome ∧ e.items?.isSome
        ∧ (∀ p, e.position? = some p → p ≠ "" → e.date?.isSome)) :=
  ⟨by decide,
    c9_required_keys ResumeGen.okResumeData
      [ResumeGen.Node.heading 0 "N", ResumeGen.Node.heading 3 "T",
       ResumeGen.Node.heading 1 "S", ResumeGen.Node.heading 2 "P"]
      (by decide)⟩

/-- C10: validation rejects a required field that is present but maps to an
empty (falsy) value: whenever any of name, phone, email, address equals the
empty string in the header, `checkFields` raises — and therefore `coverMain`
fails before any rendering. -/
theorem c10_empty_rejected (header : List (String × String)) (f : String)
    (hf : f ∈ CoverLetter.requiredFields) (hv : header.lookup f = some "") :
    (∃ m, CoverLetter.checkFields header CoverLetter.requiredFields = .error m)
  ∧ ∀ t p c ds, ∃ m, CoverLetter.coverMain header t p c ds = .error m := by
  have hmf : CoverLetter.missingOrEmpty header f = true := by
    simp [CoverLetter.missingOrEmpty, hv]
  obtain ⟨m, hm⟩ := CoverLetter.checkFields_error_of_mem hmf hf
  exact ⟨⟨m, hm⟩, fun t p c ds => ⟨m, CoverLetter.coverMain_error hm t p c ds⟩⟩

theorem c10_witness :
    ("phone" ∈ CoverLetter.requiredFields
      ∧ ([("name", "N"), ("phone", ""), ("email", "e"), ("address", "a")].lookup "phone"
          = some ""))
  ∧ ((∃ m, CoverLetter.checkFields
        [("name", "N"), ("phone", ""), ("email", "e"), ("address", "a")]
        CoverLetter.requiredFields = .error m)
      ∧ ∀ t p c ds, ∃ m, CoverLetter.coverMain
          [("name", "N"), ("phone", ""), ("email", "e"), ("address", "a")]
          t p c ds = .error m) :=
  ⟨⟨by decide, by decide⟩,
    c10_empty_rejected [("name", "N"), ("phone", ""), ("email", "e"), ("address", "a")]
      "phone" (by decide) (by decide)⟩
